import Mathlib

/-!
# InsightX upload widget (`static/script.js`)

A shallow embedding of the browser script: the DOM fields the script reads and
writes, its helper functions, the two asynchronous request flows with their
timers, and the event listeners, followed by the properties proved about them.

Numbers: `formatFileSize` is read over exact arithmetic (rationals) instead of
IEEE doubles; file sizes are natural numbers.
-/

namespace InsightX

/-! ## formatFileSize -/

/-- The constant `k = 1024` of `formatFileSize`. -/
def k : Nat := 1024

/-- The unit table `sizes` of `formatFileSize`. -/
def sizes : List String := ["Bytes", "KB", "MB", "GB"]

/-- The index `i = Math.floor(Math.log(bytes) / Math.log(k))`, over exact
arithmetic: the floor of the base-1024 logarithm. -/
def unitIndex (bytes : Nat) : Nat := Nat.log k bytes

/-- JavaScript `Math.round`: the integer nearest to `x`, halves going up,
that is `floor (x + 1/2)`. -/
def mathRound (x : ℚ) : ℤ := ⌊x + 1 / 2⌋

/-- The value `Math.round((bytes / Math.pow(k, i)) * 100)`: the scaled size in
hundredths of the unit. -/
def scaledHundredths (bytes i : Nat) : ℤ :=
  mathRound (((bytes : ℚ) / (k : ℚ) ^ i) * 100)

/-- The decimal digits after the point of a number with `c` hundredths
(`c < 100`), as JavaScript prints them: nothing for a whole number, one digit
when the second would be zero, two digits otherwise. -/
def fractionDigits (c : Nat) : String :=
  if c = 0 then ""
  else if c % 10 = 0 then "." ++ toString (c / 10)
  else "." ++ toString (c / 10) ++ toString (c % 10)

/-- Number-to-string conversion of the JavaScript number `n / 100` for a
natural `n`: the integer part followed by `fractionDigits`. -/
def hundredthsToString (n : Nat) : String :=
  toString (n / 100) ++ fractionDigits (n % 100)

/-- The string JavaScript concatenates for `sizes[i]`: the entry, or
`undefined` when the index is outside the table. -/
def unitName (i : Nat) : String := (sizes[i]?).getD "undefined"

/-- The function `formatFileSize(bytes)`. -/
def formatFileSize (bytes : Nat) : String :=
  if bytes = 0 then "0 Bytes"
  else
    let i := unitIndex bytes
    hundredthsToString (scaledHundredths bytes i).toNat ++ " " ++ unitName i


/-! ## The page state -/

/-- A file handle as the script sees it: `file.name` and `file.size`. -/
structure File where
  name : String
  size : Nat
deriving DecidableEq

/-- The method `String.prototype.endsWith`: the code units of `suffix` are the last ones
of `s` (case-sensitive). -/
def endsWith (s suffix : String) : Bool := suffix.data.isSuffixOf s.data

/-- The `type` argument of `showStatus`. -/
inductive StatusType where
  | info
  | success
  | error
deriving DecidableEq

/-- The class name `status-${type}` given to the status banner. -/
def StatusType.className : StatusType → String
  | .info => "status-info"
  | .success => "status-success"
  | .error => "status-error"

/-- The icons drawn by the `<svg>` elements of the banner (their path data
and CSS classes are left out). -/
inductive Icon where
  | check
  | alert
  | info
  | download
deriving DecidableEq

/-- The markup assigned to `statusMessage.innerHTML`, element by element as
the template literals list them. The content of a `span` is the string
interpolated into the template: it is markup, which the browser parses, and
is displayed as the same text only when it holds no HTML syntax. -/
inductive Html where
  | svg (icon : Icon)
  | span (markup : String)
  | a (href : String) (icon : Icon) (label : String)
deriving DecidableEq

/-- The module variable `selectedFile` and the properties of the DOM elements
the script reads or writes. For `statusMessage` the class list is kept as the
kind class (`statusClassName`) and the presence of `hidden` (`statusHidden`). -/
structure Dom where
  selectedFile : Option File
  dropZoneDragOver : Bool
  fileInputValue : String
  fileInfoHidden : Bool
  fileNameText : String
  fileSizeText : String
  generateBtnDisabled : Bool
  sampleBtnDisabled : Bool
  statusClassName : String
  statusHtml : List Html
  statusHidden : Bool
  progressBarHidden : Bool
  progressFillWidth : String
  progressText : String
deriving DecidableEq

/-- The icon `showStatus` picks for a type. -/
def statusIcon : StatusType → Icon
  | .success => .check
  | .error => .alert
  | .info => .info

/-- The function `showStatus(message, type)`: the message is interpolated
into the markup assigned to `innerHTML`; assigning `className` replaces the
whole class list, so the banner is no longer hidden. -/
def showStatus (d : Dom) (message : String) (type : StatusType) : Dom :=
  { d with
    statusClassName := type.className
    statusHtml := [.svg (statusIcon type), .span message]
    statusHidden := false }

/-- The function `hideStatus()`. -/
def hideStatus (d : Dom) : Dom := { d with statusHidden := true }

/-- The text `${percent}%`. -/
def percentText (percent : Nat) : String := toString percent ++ "%"

/-- The function `showProgress(percent)`. -/
def showProgress (d : Dom) (percent : Nat) : Dom :=
  { d with
    progressBarHidden := false
    progressFillWidth := percentText percent
    progressText := percentText percent }

/-- The function `hideProgress()`. -/
def hideProgress (d : Dom) : Dom :=
  { d with
    progressBarHidden := true
    progressFillWidth := "0%"
    progressText := "0%" }

/-- The function `handleFileSelect(file)`; `none` is the `undefined` the
listeners pass when the file list is empty. -/
def handleFileSelect (d : Dom) : Option File → Dom
  | none => d
  | some file =>
    if !endsWith file.name ".csv" then
      showStatus d "Please select a CSV file" .error
    else
      hideStatus
        { d with
          selectedFile := some file
          fileNameText := file.name
          fileSizeText := formatFileSize file.size
          fileInfoHidden := false
          generateBtnDisabled := false }

/-- The function `removeFile()`. -/
def removeFile (d : Dom) : Dom :=
  hideStatus
    { d with
      selectedFile := none
      fileInputValue := ""
      fileInfoHidden := true
      generateBtnDisabled := true }

/-- The function `showSuccessWithDownload()`. -/
def showSuccessWithDownload (d : Dom) : Dom :=
  { d with
    statusClassName := "status-success"
    statusHtml :=
      [.svg .check, .span "Report generated successfully!",
       .a "/download-report" .download "Download PDF"]
    statusHidden := false
    generateBtnDisabled := if d.selectedFile ≠ none then false else true
    sampleBtnDisabled := false }

/-! ## Timers, requests and the event loop -/

/-- Which of the two flows a request belongs to. -/
inductive Flow where
  | upload
  | sample
deriving DecidableEq

/-- The callbacks handed to `setTimeout`: a cosmetic `showProgress(p)`, or the
completion callback `() => { hideProgress(); showSuccessWithDownload(); }` of
a flow (the flow is recorded for bookkeeping only). -/
inductive TimerAction where
  | showProgress (percent : Nat)
  | finish (flow : Flow)
deriving DecidableEq

/-- A pending `setTimeout` callback with the time at which it is due. -/
structure Timer where
  due : Nat
  action : TimerAction
deriving DecidableEq

/-- Where a flow is suspended: at `await fetch(...)`, or at
`await response.json()` with the `response.ok` it has seen. -/
inductive Phase where
  | fetching
  | readingBody (ok : Bool)
deriving DecidableEq

/-- A request flow that has started and not yet completed. -/
structure Pending where
  id : Nat
  flow : Flow
  phase : Phase
deriving DecidableEq

/-- A call of `fetch`: method, URL and the file in the form data, if any. -/
structure Request where
  method : String
  url : String
  body : Option File
deriving DecidableEq

/-- The page together with the clock (milliseconds), the pending timers in
registration order, the flows in flight and the log of requests sent. -/
structure World where
  dom : Dom
  now : Nat
  timers : List Timer
  pending : List Pending
  sent : List Request
deriving DecidableEq

/-- Running a timer callback. -/
def runTimer (d : Dom) : TimerAction → Dom
  | .showProgress percent => showProgress d percent
  | .finish _ => showSuccessWithDownload (hideProgress d)

/-- Time passes by `ms` milliseconds: every timer that comes due runs, in
order of due time and, among equal due times, in order of registration. -/
def elapse (w : World) (ms : Nat) : World :=
  let target := w.now + ms
  let fired :=
    (w.timers.filter (fun t => t.due ≤ target)).insertionSort (fun t u => t.due ≤ u.due)
  { w with
    now := target
    dom := fired.foldl (fun d t => runTimer d t.action) w.dom
    timers := w.timers.filter (fun t => ¬ t.due ≤ target) }

/-- The call `setTimeout(action, delay)`. -/
def setTimeout (w : World) (action : TimerAction) (delay : Nat) : World :=
  { w with timers := w.timers ++ [⟨w.now + delay, action⟩] }

/-- The call `fetch(...)` of a flow, up to the `await`: the request is logged
and the flow is recorded as in flight. -/
def startFetch (w : World) (flow : Flow) (req : Request) : World :=
  { w with
    pending := w.pending ++ [⟨w.sent.length, flow, .fetching⟩]
    sent := w.sent ++ [req] }

/-- A property of the parsed body as the script uses it: missing, a boolean,
a string, or any other JSON value (null, a number, an array, an object), of
which only the truthiness and the string conversion matter. -/
inductive JsValue where
  | undefined
  | bool (b : Bool)
  | string (s : String)
  | other (truthy : Bool) (text : String)
deriving DecidableEq

/-- JavaScript truthiness. -/
def JsValue.truthy : JsValue → Bool
  | .undefined => false
  | .bool b => b
  | .string s => s != ""
  | .other truthy _ => truthy

/-- JavaScript string conversion, as in a template literal. -/
def JsValue.toText : JsValue → String
  | .undefined => "undefined"
  | .bool b => if b then "true" else "false"
  | .string s => s
  | .other _ text => text

/-- The value `data` that `response.json()` resolves with: JSON `null`, on
which reading a property throws a `TypeError` with the given message, or any
other JSON value with its `success` and `error` properties. -/
inductive Body where
  | null (typeError : String)
  | value (success error : JsValue)
deriving DecidableEq

/-- JavaScript `data.error || fallback`, converted to a string by the
template of `showStatus`: the error value when it is truthy. -/
def errorOr (error : JsValue) (fallback : String) : String :=
  if error.truthy then error.toText else fallback

/-- The function `generateReport()` up to its first `await`. -/
def generateReport (w : World) : World :=
  match w.dom.selectedFile with
  | none => { w with dom := showStatus w.dom "Please select a file first" .error }
  | some file =>
    let d := { w.dom with generateBtnDisabled := true, sampleBtnDisabled := true }
    let d := showProgress (hideStatus d) 10
    let w := setTimeout { w with dom := d } (.showProgress 30) 300
    let w := setTimeout w (.showProgress 50) 600
    startFetch w .upload ⟨"POST", "/upload", some file⟩

/-- The function `generateSampleReport()` up to its first `await`. -/
def generateSampleReport (w : World) : World :=
  let d := { w.dom with generateBtnDisabled := true, sampleBtnDisabled := true }
  let d := showProgress (hideStatus d) 10
  let w := setTimeout { w with dom := d } (.showProgress 30) 300
  let w := setTimeout w (.showProgress 60) 600
  startFetch w .sample ⟨"GET", "/generate-sample", none⟩

/-- The step after `await fetch(...)` resolves: `showProgress(70)` (upload) or
`showProgress(85)` (sample). -/
def afterFetch (d : Dom) : Flow → Dom
  | .upload => showProgress d 70
  | .sample => showProgress d 85

/-- The `else` branch after the body was read: the error banner and the
controls re-enabled. -/
def failureBranch (d : Dom) (flow : Flow) (error : JsValue) : Dom :=
  match flow with
  | .upload =>
    let d := showStatus (hideProgress d) (errorOr error "Error generating report") .error
    { d with generateBtnDisabled := false, sampleBtnDisabled := false }
  | .sample =>
    let d := showStatus (hideProgress d) (errorOr error "Error generating sample report") .error
    { d with
      generateBtnDisabled := if d.selectedFile ≠ none then false else true
      sampleBtnDisabled := false }

/-- The `catch (error)` block of a flow. -/
def catchBlock (d : Dom) (flow : Flow) (message : String) : Dom :=
  let d := showStatus (hideProgress d) ("Network error: " ++ message) .error
  match flow with
  | .upload => { d with generateBtnDisabled := false, sampleBtnDisabled := false }
  | .sample =>
    { d with
      generateBtnDisabled := if d.selectedFile ≠ none then false else true
      sampleBtnDisabled := false }

/-- The step after `await response.json()` resolves with `data`:
`showProgress(90)` or `(95)`, then the success branch (`showProgress(100)` and
the completion callback scheduled in 500 ms) or the failure branch. On JSON
`null` the first property read throws and the `catch` block runs: at
`data.success` when `response.ok` holds, and otherwise at `data.error`, after
the `hideProgress()` of the failure branch. -/
def afterBody (w : World) (flow : Flow) (ok : Bool) (data : Body) : World :=
  let d := match flow with
    | .upload => showProgress w.dom 90
    | .sample => showProgress w.dom 95
  match data with
  | .null typeError =>
    if ok then { w with dom := catchBlock d flow typeError }
    else { w with dom := catchBlock (hideProgress d) flow typeError }
  | .value success error =>
    if ok && success.truthy then
      setTimeout { w with dom := showProgress d 100 } (.finish flow) 500
    else
      { w with dom := failureBranch d flow error }

/-- The flow in flight with the given request id. -/
def findPending (ps : List Pending) (id : Nat) : Option Pending :=
  ps.find? (fun p => p.id == id)

/-- The flows in flight without the one with the given id. -/
def dropPending (ps : List Pending) (id : Nat) : List Pending :=
  ps.filter (fun p => p.id != id)

/-- What can happen to the page: user input, network completions of a flow in
flight, and the passing of time. -/
inductive Event where
  | dropZoneClick
  | dragover
  | dragleave
  | drop (file : Option File)
  | change (file : Option File)
  | removeClick
  | generateClick
  | sampleClick
  | keydown (ctrlKey metaKey : Bool) (key : String)
  | fetchResolved (id : Nat) (ok : Bool)
  | fetchRejected (id : Nat) (message : String)
  | jsonResolved (id : Nat) (data : Body)
  | jsonRejected (id : Nat) (message : String)
  | elapse (ms : Nat)
deriving DecidableEq

/-- The listeners and continuations run for one event. A click on a disabled
button is not dispatched; a network completion for a flow that is not waiting
for it does nothing. -/
def step (w : World) : Event → World
  | .dropZoneClick => w
  | .dragover => { w with dom := { w.dom with dropZoneDragOver := true } }
  | .dragleave => { w with dom := { w.dom with dropZoneDragOver := false } }
  | .drop file =>
    { w with dom := handleFileSelect { w.dom with dropZoneDragOver := false } file }
  | .change file => { w with dom := handleFileSelect w.dom file }
  | .removeClick => { w with dom := removeFile w.dom }
  | .generateClick => if w.dom.generateBtnDisabled then w else generateReport w
  | .sampleClick => if w.dom.sampleBtnDisabled then w else generateSampleReport w
  | .keydown _ _ key =>
    if key = "Enter" ∧ w.dom.selectedFile ≠ none then generateReport w else w
  | .fetchResolved id ok =>
    match findPending w.pending id with
    | some ⟨_, flow, .fetching⟩ =>
      { w with
        dom := afterFetch w.dom flow
        pending := w.pending.map (fun p => if p.id == id then ⟨id, flow, .readingBody ok⟩ else p) }
    | _ => w
  | .fetchRejected id message =>
    match findPending w.pending id with
    | some ⟨_, flow, .fetching⟩ =>
      { w with dom := catchBlock w.dom flow message, pending := dropPending w.pending id }
    | _ => w
  | .jsonResolved id data =>
    match findPending w.pending id with
    | some ⟨_, flow, .readingBody ok⟩ =>
      afterBody { w with pending := dropPending w.pending id } flow ok data
    | _ => w
  | .jsonRejected id message =>
    match findPending w.pending id with
    | some ⟨_, flow, .readingBody _⟩ =>
      { w with dom := catchBlock w.dom flow message, pending := dropPending w.pending id }
    | _ => w
  | .elapse ms => elapse w ms

/-- The events of a list applied in order. -/
def run (w : World) (events : List Event) : World := events.foldl step w

/-- A page with the given DOM at time zero: no timer pending, nothing in
flight, no request sent yet. -/
def World.start (d : Dom) : World := ⟨d, 0, [], [], []⟩

/-- Whether `response.ok && data.success` holds for a body that was read
(on JSON `null` the read throws, so it does not). -/
def succeeds (ok : Bool) : Body → Bool
  | .null _ => false
  | .value success _ => ok && success.truthy

/-- The ways a run of `generateReport` fails: `fetch` rejects before a
response; a response arrives but `response.json()` rejects; or the body is
read and `response.ok && data.success` does not hold. -/
inductive UploadFailure where
  | transport (message : String)
  | unreadable (ok : Bool) (message : String)
  | body (ok : Bool) (data : Body)
deriving DecidableEq

/-- Whether the outcome takes a failure path: a body that was read counts
only when `response.ok && data.success` does not hold. -/
def UploadFailure.isFailure : UploadFailure → Bool
  | .body ok data => !succeeds ok data
  | _ => true

/-- The events of a failing run after the click: `a` milliseconds until the
`fetch` promise settles and, when a response arrived, `b` more until the body
promise settles. -/
def UploadFailure.events (id a b : Nat) : UploadFailure → List Event
  | .transport message => [.elapse a, .fetchRejected id message]
  | .unreadable ok message =>
    [.elapse a, .fetchResolved id ok, .elapse b, .jsonRejected id message]
  | .body ok data =>
    [.elapse a, .fetchResolved id ok, .elapse b, .jsonResolved id data]

/-- The banner message the specification states for a failed upload: the
response's error string when present and non-empty, the generic text when the
response carries no error string, the `Network error: ` prefix for a transport
failure. -/
def claimedMessage : UploadFailure → String
  | .transport message => "Network error: " ++ message
  | .unreadable _ _ => "Error generating report"
  | .body _ (.value _ (.string e)) => if e = "" then "Error generating report" else e
  | .body _ _ => "Error generating report"

/-- The user and clock events that may fall between the steps of a flow in
the runs studied here: file selection by browse or drop, file removal, drag
feedback, opening the file dialog, and the passing of time. -/
def quiet : Event → Bool
  | .dropZoneClick => true
  | .dragover => true
  | .dragleave => true
  | .drop _ => true
  | .change _ => true
  | .removeClick => true
  | .elapse _ => true
  | _ => false

/-- The time that passes during a list of events. -/
def elapsedTime : List Event → Nat
  | [] => 0
  | .elapse ms :: es => ms + elapsedTime es
  | _ :: es => elapsedTime es

/-- The outcomes of a run of `generateSampleReport`: `fetch` rejects; a
response arrives but `response.json()` rejects; or the body is read (success
when `response.ok && data.success` holds, failure otherwise). -/
inductive SampleOutcome where
  | transport (message : String)
  | unreadable (ok : Bool) (message : String)
  | body (ok : Bool) (data : Body)
deriving DecidableEq

/-- A whole run of `generateSampleReport` from the call to the completion of
the flow, with quiet events in between: `us1` while `fetch` is pending, `us2`
while the body is read and, on success, `us3` during the 500 ms before the
completion callback, which runs when the rest of the 500 ms has passed. -/
def sampleRun (w : World) (us1 us2 us3 : List Event) : SampleOutcome → World
  | .transport message =>
    step (run (generateSampleReport w) us1) (.fetchRejected w.sent.length message)
  | .unreadable ok message =>
    step (run (step (run (generateSampleReport w) us1) (.fetchResolved w.sent.length ok)) us2)
      (.jsonRejected w.sent.length message)
  | .body ok data =>
    let v := step
      (run (step (run (generateSampleReport w) us1) (.fetchResolved w.sent.length ok)) us2)
      (.jsonResolved w.sent.length data)
    if succeeds ok data then elapse (run v us3) (500 - elapsedTime us3) else v

/-- The quiet events that take place during a run with the given outcome. -/
def SampleOutcome.userEvents (us1 us2 us3 : List Event) : SampleOutcome → List Event
  | .transport _ => us1
  | .unreadable _ _ => us1 ++ us2
  | .body ok data => if succeeds ok data then us1 ++ us2 ++ us3 else us1 ++ us2

/-- No completion callback is among the timers: all of them are cosmetic. -/
def cosmeticOnly (timers : List Timer) : Prop :=
  ∀ t ∈ timers, ∀ flow, t.action ≠ .finish flow

/-- Two pages agree on everything but the progress bar. -/
def sameOffProgress (d e : Dom) : Prop :=
  e.selectedFile = d.selectedFile ∧ e.generateBtnDisabled = d.generateBtnDisabled ∧
  e.sampleBtnDisabled = d.sampleBtnDisabled ∧ e.statusHidden = d.statusHidden ∧
  e.statusClassName = d.statusClassName ∧ e.statusHtml = d.statusHtml

/-- The condition every completion of a sample flow establishes: the sample
control is enabled and the primary action is enabled exactly when a file is
stored. -/
def controlsMatchFile (d : Dom) : Prop :=
  d.sampleBtnDisabled = false ∧ (d.generateBtnDisabled = false ↔ d.selectedFile ≠ none)

/-- A page on which `report.csv` (10 bytes) has been selected. -/
def reportPage : Dom :=
  ⟨some ⟨"report.csv", 10⟩, false, "", false, "report.csv", "10 Bytes", false, false,
    "", [], true, true, "0%", "0%"⟩

/-! ## Facts about formatFileSize -/

/-- The unit index is the exponent of the power of 1024 bracket the size
falls in. -/
theorem unitIndex_eq {bytes i : Nat} (h₁ : 1024 ^ i ≤ bytes) (h₂ : bytes < 1024 ^ (i + 1)) :
    unitIndex bytes = i :=
  Nat.log_eq_of_pow_le_of_lt_pow h₁ h₂

/-- `Math.round` agrees with the mathematical rounding to the nearest integer. -/
theorem mathRound_eq_round (x : ℚ) : mathRound x = round x := by
  unfold mathRound
  rw [round_eq]

/-- The scaled size is never negative. -/
theorem scaledHundredths_nonneg (bytes i : Nat) : 0 ≤ scaledHundredths bytes i := by
  unfold scaledHundredths mathRound
  apply Int.floor_nonneg.mpr
  positivity

/-- The scaled size as a quotient of natural numbers. -/
theorem scaledHundredths_toNat (bytes i : Nat) :
    (scaledHundredths bytes i).toNat = (200 * bytes + 1024 ^ i) / (2 * 1024 ^ i) := by
  have key : ((bytes : ℚ) / (k : ℚ) ^ i) * 100 + 1 / 2
      = ((200 * bytes + 1024 ^ i : ℕ) : ℚ) / ((2 * 1024 ^ i : ℕ) : ℚ) := by
    have hk : ((k : ℕ) : ℚ) = 1024 := by norm_num [k]
    rw [hk]
    push_cast
    field_simp
    ring
  unfold scaledHundredths mathRound
  rw [key, Rat.floor_natCast_div_natCast]
  exact Int.toNat_natCast _

/-- Evaluation rule for a positive size with a known unit bracket. -/
theorem formatFileSize_eval (bytes i n : Nat) (h₁ : 1024 ^ i ≤ bytes)
    (h₂ : bytes < 1024 ^ (i + 1)) (hn : (200 * bytes + 1024 ^ i) / (2 * 1024 ^ i) = n) :
    formatFileSize bytes = hundredthsToString n ++ " " ++ unitName i := by
  have hpos : bytes ≠ 0 := by
    have : 0 < 1024 ^ i := by positivity
    omega
  unfold formatFileSize
  rw [if_neg hpos]
  simp only [unitIndex_eq h₁ h₂, scaledHundredths_toNat, hn]

/-- A ten-byte file is shown as `10 Bytes`. -/
theorem formatFileSize_ten : formatFileSize 10 = "10 Bytes" := by
  rw [formatFileSize_eval 10 0 1000 (by norm_num) (by norm_num) (by norm_num)]
  decide

/-- Below 1024^4 the unit index stays inside the unit table. -/
theorem unitIndex_lt_four {bytes : Nat} (hpos : bytes ≠ 0) (h : bytes < 1024 ^ 4) :
    unitIndex bytes < 4 :=
  Nat.log_lt_of_lt_pow hpos h

/-- Every index below four has an entry in the unit table. -/
theorem sizes_lookup {i : Nat} (h : i < 4) : ∃ unit, sizes[i]? = some unit := by
  interval_cases i <;> simp [sizes]

/-- C3. `formatFileSize(0)` is `0 Bytes` and `formatFileSize(1536)` is `1.5 KB`;
for every size from 1 up to (not including) 1024^4 the result is the number
`round(bytes / 1024^i * 100) / 100` printed with at most two decimals and no
trailing zero, a space, and the `i`-th unit name, where `i` is the largest
exponent with `1024^i ≤ bytes`. -/
theorem formatFileSize_spec (bytes : Nat) (h₁ : 1 ≤ bytes) (h₂ : bytes < 1024 ^ 4) :
    formatFileSize 0 = "0 Bytes" ∧ formatFileSize 1536 = "1.5 KB" ∧
    ∃ (i n : Nat) (unit : String),
      1024 ^ i ≤ bytes ∧ (∀ j, 1024 ^ j ≤ bytes → j ≤ i) ∧
      ["Bytes", "KB", "MB", "GB"][i]? = some unit ∧
      (n : ℤ) = round ((bytes : ℚ) / 1024 ^ i * 100) ∧
      formatFileSize bytes
        = toString (n / 100) ++ fractionDigits (n % 100) ++ " " ++ unit := by
  have hpos : bytes ≠ 0 := by omega
  refine ⟨by decide, ?_, ?_⟩
  · rw [formatFileSize_eval 1536 1 150 (by norm_num) (by norm_num) (by norm_num)]
    decide
  · obtain ⟨unit, hunit⟩ := sizes_lookup (unitIndex_lt_four hpos h₂)
    have hle : 1024 ^ unitIndex bytes ≤ bytes := Nat.pow_log_le_self 1024 hpos
    have hlt : bytes < 1024 ^ (unitIndex bytes + 1) :=
      Nat.lt_pow_succ_log_self (by norm_num) bytes
    refine ⟨unitIndex bytes, (scaledHundredths bytes (unitIndex bytes)).toNat, unit,
      hle, ?_, hunit, ?_, ?_⟩
    · intro j hj
      exact Nat.le_log_of_pow_le (by norm_num [k]) hj
    · rw [Int.toNat_of_nonneg (scaledHundredths_nonneg _ _)]
      unfold scaledHundredths
      rw [mathRound_eq_round]
      norm_num [k]
    · unfold formatFileSize
      rw [if_neg hpos]
      simp only [hundredthsToString, unitName, hunit, Option.getD_some]

/-- C3, at a concrete size: 1 153 434 bytes are printed as `1.1 MB`. -/
theorem formatFileSize_spec_witness :
    formatFileSize 0 = "0 Bytes" ∧ formatFileSize 1536 = "1.5 KB" ∧
    ∃ (i n : Nat) (unit : String),
      1024 ^ i ≤ 1153434 ∧ (∀ j, 1024 ^ j ≤ 1153434 → j ≤ i) ∧
      ["Bytes", "KB", "MB", "GB"][i]? = some unit ∧
      (n : ℤ) = round (((1153434 : ℕ) : ℚ) / 1024 ^ i * 100) ∧
      formatFileSize 1153434
        = toString (n / 100) ++ fractionDigits (n % 100) ++ " " ++ unit :=
  formatFileSize_spec 1153434 (by norm_num) (by norm_num)

/-- C10. For a positive size the unit index computed by `formatFileSize` is a
valid index of the four-entry unit table exactly when the size is below
1024^4: the lookup yields a unit below that bound and nothing from it on. -/
theorem unitIndex_valid_iff (bytes : Nat) (hpos : 0 < bytes) :
    (unitIndex bytes < sizes.length ↔ bytes < 1024 ^ 4) ∧
    (bytes < 1024 ^ 4 → ∃ unit, sizes[unitIndex bytes]? = some unit) ∧
    (1024 ^ 4 ≤ bytes → sizes[unitIndex bytes]? = none) := by
  have hne : bytes ≠ 0 := by omega
  have hiff : unitIndex bytes < 4 ↔ bytes < 1024 ^ 4 :=
    (Nat.lt_pow_iff_log_lt (by norm_num [k]) hne).symm
  refine ⟨by simpa [sizes] using hiff, fun h => sizes_lookup (hiff.mpr h), fun h => ?_⟩
  have hge : 4 ≤ unitIndex bytes := by
    by_contra hcon
    exact absurd (hiff.mp (by omega)) (by omega)
  exact List.getElem?_eq_none (by simpa [sizes] using hge)

/-- C10, at the last size with a unit: 1024^4 - 1 bytes. -/
theorem unitIndex_valid_iff_witness :
    (unitIndex 1099511627775 < sizes.length ↔ 1099511627775 < 1024 ^ 4) ∧
    (1099511627775 < 1024 ^ 4 → ∃ unit, sizes[unitIndex 1099511627775]? = some unit) ∧
    (1024 ^ 4 ≤ 1099511627775 → sizes[unitIndex 1099511627775]? = none) :=
  unitIndex_valid_iff 1099511627775 (by decide)

/-! ## File selection and removal -/

/-- The test `endsWith` holds exactly when the string is some stem followed by
the suffix. -/
theorem endsWith_iff (s suffix : String) :
    endsWith s suffix = true ↔ ∃ stem : String, s = stem ++ suffix := by
  unfold endsWith
  rw [List.isSuffixOf_iff_suffix]
  constructor
  · rintro ⟨t, ht⟩
    refine ⟨⟨t⟩, ?_⟩
    apply String.ext
    simp [String.data_append, ht]
  · rintro ⟨stem, rfl⟩
    exact ⟨stem.data, by simp [String.data_append]⟩

/-- C1. A candidate file whose name does not end in `.csv` (case-sensitive)
changes neither the stored file, nor the displayed name and size, nor the
visibility of the file info, nor the primary action; no request is issued and
the status banner shows the error `Please select a CSV file`. -/
theorem handleFileSelect_rejects (w : World) (file : File)
    (h : ¬ ∃ stem : String, file.name = stem ++ ".csv") :
    let d := handleFileSelect w.dom (some file)
    d.selectedFile = w.dom.selectedFile ∧
    d.fileNameText = w.dom.fileNameText ∧
    d.fileSizeText = w.dom.fileSizeText ∧
    d.fileInfoHidden = w.dom.fileInfoHidden ∧
    d.generateBtnDisabled = w.dom.generateBtnDisabled ∧
    d.statusHidden = false ∧
    d.statusClassName = "status-error" ∧
    d.statusHtml = [.svg .alert, .span "Please select a CSV file"] ∧
    (step w (.change (some file))).dom = d ∧
    (step w (.change (some file))).sent = w.sent ∧
    (step w (.change (some file))).pending = w.pending ∧
    (step w (.drop (some file))).dom.selectedFile = w.dom.selectedFile ∧
    (step w (.drop (some file))).dom.statusHtml = d.statusHtml ∧
    (step w (.drop (some file))).sent = w.sent ∧
    (step w (.drop (some file))).pending = w.pending := by
  have hne : endsWith file.name ".csv" = false := by
    rw [← Bool.not_eq_true, endsWith_iff]
    exact h
  simp [handleFileSelect, hne, showStatus, step, StatusType.className, statusIcon]

/-- C1, for the upper-case name `data.CSV` on a page that holds `old.csv`. -/
theorem handleFileSelect_rejects_witness :
    let w : World :=
      ⟨⟨some ⟨"old.csv", 7⟩, false, "", false, "old.csv", "7 Bytes", false, false,
        "", [], true, true, "0%", "0%"⟩, 0, [], [], []⟩
    let d := handleFileSelect w.dom (some ⟨"data.CSV", 3⟩)
    d.selectedFile = w.dom.selectedFile ∧
    d.fileNameText = w.dom.fileNameText ∧
    d.fileSizeText = w.dom.fileSizeText ∧
    d.fileInfoHidden = w.dom.fileInfoHidden ∧
    d.generateBtnDisabled = w.dom.generateBtnDisabled ∧
    d.statusHidden = false ∧
    d.statusClassName = "status-error" ∧
    d.statusHtml = [.svg .alert, .span "Please select a CSV file"] ∧
    (step w (.change (some ⟨"data.CSV", 3⟩))).dom = d ∧
    (step w (.change (some ⟨"data.CSV", 3⟩))).sent = w.sent ∧
    (step w (.change (some ⟨"data.CSV", 3⟩))).pending = w.pending ∧
    (step w (.drop (some ⟨"data.CSV", 3⟩))).dom.selectedFile = w.dom.selectedFile ∧
    (step w (.drop (some ⟨"data.CSV", 3⟩))).dom.statusHtml = d.statusHtml ∧
    (step w (.drop (some ⟨"data.CSV", 3⟩))).sent = w.sent ∧
    (step w (.drop (some ⟨"data.CSV", 3⟩))).pending = w.pending :=
  handleFileSelect_rejects
    ⟨⟨some ⟨"old.csv", 7⟩, false, "", false, "old.csv", "7 Bytes", false, false,
      "", [], true, true, "0%", "0%"⟩, 0, [], [], []⟩
    ⟨"data.CSV", 3⟩
    (fun hex => absurd ((endsWith_iff "data.CSV" ".csv").mpr hex) (by decide))

/-- C2. A file whose name ends in `.csv` becomes the stored file; its name and
formatted size are displayed, the file info is visible, the primary action is
enabled and the status banner is hidden. The file `report.csv` of 10 bytes is
displayed as `report.csv` and `10 Bytes`. -/
theorem handleFileSelect_accepts (d : Dom) (file : File)
    (h : ∃ stem : String, file.name = stem ++ ".csv") :
    (handleFileSelect d (some file)).selectedFile = some file ∧
    (handleFileSelect d (some file)).fileNameText = file.name ∧
    (handleFileSelect d (some file)).fileSizeText = formatFileSize file.size ∧
    (handleFileSelect d (some file)).fileInfoHidden = false ∧
    (handleFileSelect d (some file)).generateBtnDisabled = false ∧
    (handleFileSelect d (some file)).statusHidden = true ∧
    (handleFileSelect d (some ⟨"report.csv", 10⟩)).selectedFile = some ⟨"report.csv", 10⟩ ∧
    (handleFileSelect d (some ⟨"report.csv", 10⟩)).fileNameText = "report.csv" ∧
    (handleFileSelect d (some ⟨"report.csv", 10⟩)).fileSizeText = "10 Bytes" ∧
    (handleFileSelect d (some ⟨"report.csv", 10⟩)).generateBtnDisabled = false := by
  have hyes : endsWith file.name ".csv" = true := (endsWith_iff _ _).mpr h
  have hrep : endsWith "report.csv" ".csv" = true := by decide
  simp [handleFileSelect, hyes, hrep, hideStatus, formatFileSize_ten]

/-- C2, for `sales.csv` of 2048 bytes dropped on a page showing an error. -/
theorem handleFileSelect_accepts_witness :
    let d : Dom :=
      ⟨none, false, "", true, "", "", true, false, "status-error",
        [.svg .alert, .span "Please select a CSV file"], false, true, "0%", "0%"⟩
    (handleFileSelect d (some ⟨"sales.csv", 2048⟩)).selectedFile = some ⟨"sales.csv", 2048⟩ ∧
    (handleFileSelect d (some ⟨"sales.csv", 2048⟩)).fileNameText = "sales.csv" ∧
    (handleFileSelect d (some ⟨"sales.csv", 2048⟩)).fileSizeText = formatFileSize 2048 ∧
    (handleFileSelect d (some ⟨"sales.csv", 2048⟩)).fileInfoHidden = false ∧
    (handleFileSelect d (some ⟨"sales.csv", 2048⟩)).generateBtnDisabled = false ∧
    (handleFileSelect d (some ⟨"sales.csv", 2048⟩)).statusHidden = true ∧
    (handleFileSelect d (some ⟨"report.csv", 10⟩)).selectedFile = some ⟨"report.csv", 10⟩ ∧
    (handleFileSelect d (some ⟨"report.csv", 10⟩)).fileNameText = "report.csv" ∧
    (handleFileSelect d (some ⟨"report.csv", 10⟩)).fileSizeText = "10 Bytes" ∧
    (handleFileSelect d (some ⟨"report.csv", 10⟩)).generateBtnDisabled = false :=
  handleFileSelect_accepts
    ⟨none, false, "", true, "", "", true, false, "status-error",
      [.svg .alert, .span "Please select a CSV file"], false, true, "0%", "0%"⟩
    ⟨"sales.csv", 2048⟩ ⟨"sales", rfl⟩

/-- C7. After `removeFile` no file is stored, the file input is empty, the
file info is hidden, the primary action is disabled and the status banner is
hidden; running it twice gives the same page as running it once. -/
theorem removeFile_resets (w : World) :
    (removeFile w.dom).selectedFile = none ∧
    (removeFile w.dom).fileInputValue = "" ∧
    (removeFile w.dom).fileInfoHidden = true ∧
    (removeFile w.dom).generateBtnDisabled = true ∧
    (removeFile w.dom).statusHidden = true ∧
    removeFile (removeFile w.dom) = removeFile w.dom ∧
    (step w .removeClick).dom = removeFile w.dom ∧
    step (step w .removeClick) .removeClick = step w .removeClick := by
  simp [removeFile, hideStatus, step]

/-- C4. With no stored file `generateReport` issues no request and starts no
timer; it shows the error `Please select a file first` and leaves the stored
file, the progress bar and both action controls as they were. -/
theorem generateReport_without_file (w : World) (h : w.dom.selectedFile = none) :
    (generateReport w).sent = w.sent ∧
    (generateReport w).pending = w.pending ∧
    (generateReport w).timers = w.timers ∧
    (generateReport w).dom.statusHidden = false ∧
    (generateReport w).dom.statusClassName = "status-error" ∧
    (generateReport w).dom.statusHtml = [.svg .alert, .span "Please select a file first"] ∧
    (generateReport w).dom.selectedFile = none ∧
    (generateReport w).dom.progressBarHidden = w.dom.progressBarHidden ∧
    (generateReport w).dom.progressFillWidth = w.dom.progressFillWidth ∧
    (generateReport w).dom.progressText = w.dom.progressText ∧
    (generateReport w).dom.generateBtnDisabled = w.dom.generateBtnDisabled ∧
    (generateReport w).dom.sampleBtnDisabled = w.dom.sampleBtnDisabled := by
  simp [generateReport, h, showStatus, StatusType.className, statusIcon]

/-- C4, on a page without a file whose primary action happens to be enabled,
where the click is dispatched. -/
theorem generateReport_without_file_witness :
    let w : World :=
      ⟨⟨none, false, "", true, "", "", false, false, "", [], true, true, "0%", "0%"⟩,
        0, [], [], []⟩
    (generateReport w).sent = w.sent ∧
    (generateReport w).pending = w.pending ∧
    (generateReport w).timers = w.timers ∧
    (generateReport w).dom.statusHidden = false ∧
    (generateReport w).dom.statusClassName = "status-error" ∧
    (generateReport w).dom.statusHtml = [.svg .alert, .span "Please select a file first"] ∧
    (generateReport w).dom.selectedFile = none ∧
    (generateReport w).dom.progressBarHidden = w.dom.progressBarHidden ∧
    (generateReport w).dom.progressFillWidth = w.dom.progressFillWidth ∧
    (generateReport w).dom.progressText = w.dom.progressText ∧
    (generateReport w).dom.generateBtnDisabled = w.dom.generateBtnDisabled ∧
    (generateReport w).dom.sampleBtnDisabled = w.dom.sampleBtnDisabled :=
  generateReport_without_file
    ⟨⟨none, false, "", true, "", "", false, false, "", [], true, true, "0%", "0%"⟩,
      0, [], [], []⟩ rfl

/-! ## Timers -/

/-- No timer callback changes the stored file. -/
theorem runTimer_selectedFile (d : Dom) (action : TimerAction) :
    (runTimer d action).selectedFile = d.selectedFile := by
  cases action <;> rfl

/-- Running any list of timer callbacks leaves the stored file alone. -/
theorem foldl_runTimer_selectedFile (l : List Timer) (d : Dom) :
    (l.foldl (fun d t => runTimer d t.action) d).selectedFile = d.selectedFile := by
  induction l generalizing d with
  | nil => rfl
  | cons t l ih => rw [List.foldl_cons, ih, runTimer_selectedFile]

/-- The passing of time changes neither the stored file, nor the flows in
flight, nor the requests sent. -/
theorem elapse_keeps (w : World) (ms : Nat) :
    (elapse w ms).dom.selectedFile = w.dom.selectedFile ∧
    (elapse w ms).pending = w.pending ∧ (elapse w ms).sent = w.sent ∧
    (elapse w ms).now = w.now + ms := by
  simp [elapse, foldl_runTimer_selectedFile]

/-- Inserting before a last element that is not earlier leaves it last. -/
theorem orderedInsert_append_last (a x : Timer) (h : a.due ≤ x.due) (m : List Timer) :
    (m ++ [x]).orderedInsert (fun t u => t.due ≤ u.due) a
      = m.orderedInsert (fun t u => t.due ≤ u.due) a ++ [x] := by
  induction m with
  | nil => simp [List.orderedInsert, h]
  | cons b m ih =>
    by_cases hab : a.due ≤ b.due
    · simp [List.orderedInsert, hab]
    · simp [List.orderedInsert, hab, ih]

/-- A timer registered last and due no earlier than the others runs last. -/
theorem insertionSort_append_last (l : List Timer) (x : Timer)
    (h : ∀ t ∈ l, t.due ≤ x.due) :
    (l ++ [x]).insertionSort (fun t u => t.due ≤ u.due)
      = l.insertionSort (fun t u => t.due ≤ u.due) ++ [x] := by
  induction l with
  | nil => simp
  | cons a l ih =>
    have ha : a.due ≤ x.due := h a (List.mem_cons_self a l)
    have hl : ∀ t ∈ l, t.due ≤ x.due := fun t ht => h t (List.mem_cons_of_mem a ht)
    show ((l ++ [x]).insertionSort (fun t u => t.due ≤ u.due)).orderedInsert
        (fun t u => t.due ≤ u.due) a
      = (l.insertionSort (fun t u => t.due ≤ u.due)).orderedInsert
        (fun t u => t.due ≤ u.due) a ++ [x]
    rw [ih hl]
    exact orderedInsert_append_last a x ha _

/-- When the completion callback is the timer registered last and time passes
exactly up to its due time, it is the last callback to run. -/
theorem elapse_finish_last (w : World) (ts : List Timer) (flow : Flow) (ms : Nat)
    (h : w.timers = ts ++ [⟨w.now + ms, .finish flow⟩]) :
    ∃ d : Dom, d.selectedFile = w.dom.selectedFile ∧
      (elapse w ms).dom = showSuccessWithDownload (hideProgress d) := by
  refine ⟨((ts.filter (fun t => t.due ≤ w.now + ms)).insertionSort
      (fun t u => t.due ≤ u.due)).foldl (fun d t => runTimer d t.action) w.dom,
    foldl_runTimer_selectedFile _ _, ?_⟩
  have hfilter : (ts ++ [(⟨w.now + ms, .finish flow⟩ : Timer)]).filter
        (fun t => decide (t.due ≤ w.now + ms))
      = ts.filter (fun t => decide (t.due ≤ w.now + ms)) ++ [⟨w.now + ms, .finish flow⟩] := by
    simp [List.filter_append]
  have hmax : ∀ t ∈ ts.filter (fun t => decide (t.due ≤ w.now + ms)),
      t.due ≤ (⟨w.now + ms, .finish flow⟩ : Timer).due := by
    intro t ht
    simpa using (List.mem_filter.mp ht).2
  simp only [elapse, h, hfilter, insertionSort_append_last _ _ hmax, List.foldl_append,
    List.foldl_cons, List.foldl_nil, runTimer]

/-- The completion callback establishes `controlsMatchFile`. -/
theorem finish_controls (d : Dom) (flow : Flow) : controlsMatchFile (runTimer d (.finish flow)) := by
  cases hsel : d.selectedFile <;> simp [controlsMatchFile, runTimer, showSuccessWithDownload,
    hideProgress, hsel]

/-- Timer callbacks preserve `controlsMatchFile`. -/
theorem runTimer_controls (d : Dom) (action : TimerAction) (h : controlsMatchFile d) :
    controlsMatchFile (runTimer d action) := by
  cases action with
  | showProgress percent => exact h
  | finish flow => exact finish_controls d flow

/-- Running timer callbacks preserves `controlsMatchFile`. -/
theorem foldl_runTimer_controls (l : List Timer) (d : Dom) (h : controlsMatchFile d) :
    controlsMatchFile (l.foldl (fun d t => runTimer d t.action) d) := by
  induction l generalizing d with
  | nil => exact h
  | cons t l ih => exact ih _ (runTimer_controls d t.action h)

/-- Once a completion callback is among the callbacks run, `controlsMatchFile`
holds at the end. -/
theorem foldl_runTimer_finish (l : List Timer) (d : Dom)
    (h : ∃ t ∈ l, ∃ flow, t.action = .finish flow) :
    controlsMatchFile (l.foldl (fun d t => runTimer d t.action) d) := by
  induction l generalizing d with
  | nil => simp at h
  | cons t l ih =>
    rw [List.foldl_cons]
    by_cases hl : ∃ u ∈ l, ∃ flow, u.action = .finish flow
    · exact ih _ hl
    · obtain ⟨u, hu, flow, hflow⟩ := h
      rcases List.mem_cons.mp hu with rfl | hmem
      · rw [hflow]
        exact foldl_runTimer_controls l _ (finish_controls d flow)
      · exact absurd ⟨u, hmem, flow, hflow⟩ hl

/-- Cosmetic timer callbacks change nothing but the progress bar. -/
theorem foldl_cosmetic (l : List Timer) (d : Dom) (h : cosmeticOnly l) :
    sameOffProgress d (l.foldl (fun d t => runTimer d t.action) d) := by
  induction l generalizing d with
  | nil => exact ⟨rfl, rfl, rfl, rfl, rfl, rfl⟩
  | cons t l ih =>
    have hl : cosmeticOnly l := fun x hx => h x (List.mem_cons_of_mem t hx)
    have ht : sameOffProgress d (runTimer d t.action) := by
      cases hact : t.action with
      | showProgress percent => exact ⟨rfl, rfl, rfl, rfl, rfl, rfl⟩
      | finish flow => exact absurd hact (h t (List.mem_cons_self t l) flow)
    obtain ⟨a1, a2, a3, a4, a5, a6⟩ := ht
    obtain ⟨b1, b2, b3, b4, b5, b6⟩ := ih (runTimer d t.action) hl
    rw [List.foldl_cons]
    exact ⟨b1.trans a1, b2.trans a2, b3.trans a3, b4.trans a4, b5.trans a5, b6.trans a6⟩

/-- While only cosmetic timers are pending, the passing of time changes
nothing but the progress bar, and only cosmetic timers remain. -/
theorem elapse_cosmetic (w : World) (ms : Nat) (h : cosmeticOnly w.timers) :
    sameOffProgress w.dom (elapse w ms).dom ∧ cosmeticOnly (elapse w ms).timers := by
  constructor
  · apply foldl_cosmetic
    intro t ht
    rw [(List.perm_insertionSort _ _).mem_iff] at ht
    exact h t (List.mem_filter.mp ht).1
  · intro t ht
    exact h t (List.mem_filter.mp ht).1

/-! ## The upload flow -/

/-- With a stored file and nothing in flight, `generateReport` sends one POST
of the file to `/upload`, registers the two cosmetic timers and keeps the file. -/
theorem generateReport_with_file (w : World) (file : File)
    (hfile : w.dom.selectedFile = some file) (hidle : w.pending = []) :
    (generateReport w).dom.selectedFile = some file ∧
    (generateReport w).pending = [⟨w.sent.length, .upload, .fetching⟩] ∧
    (generateReport w).sent = w.sent ++ [⟨"POST", "/upload", some file⟩] ∧
    (cosmeticOnly w.timers → cosmeticOnly (generateReport w).timers) := by
  refine ⟨?_, ?_, ?_, ?_⟩
  · simp [generateReport, hfile, startFetch, setTimeout, showProgress, hideStatus]
  · simp [generateReport, hfile, hidle, startFetch, setTimeout]
  · simp [generateReport, hfile, startFetch, setTimeout]
  · intro h t ht flow
    simp only [generateReport, hfile, startFetch, setTimeout, List.mem_append,
      List.mem_singleton] at ht
    rcases ht with (ht | rfl) | rfl
    · exact h t ht flow
    · simp
    · simp

/-- The continuation after `await fetch` for the only flow in flight. -/
theorem step_fetchResolved_single (w : World) (id : Nat) (flow : Flow) (ok : Bool)
    (h : w.pending = [⟨id, flow, .fetching⟩]) :
    step w (.fetchResolved id ok)
      = { w with dom := afterFetch w.dom flow, pending := [⟨id, flow, .readingBody ok⟩] } := by
  simp [step, findPending, h]

/-- The `catch` block when `fetch` rejects for the only flow in flight. -/
theorem step_fetchRejected_single (w : World) (id : Nat) (flow : Flow) (message : String)
    (h : w.pending = [⟨id, flow, .fetching⟩]) :
    step w (.fetchRejected id message)
      = { w with dom := catchBlock w.dom flow message, pending := [] } := by
  simp [step, findPending, dropPending, h]

/-- The continuation after `await response.json()` for the only flow in flight. -/
theorem step_jsonResolved_single (w : World) (id : Nat) (flow : Flow) (ok : Bool)
    (data : Body) (h : w.pending = [⟨id, flow, .readingBody ok⟩]) :
    step w (.jsonResolved id data) = afterBody { w with pending := [] } flow ok data := by
  simp [step, findPending, dropPending, h]

/-- The `catch` block when `response.json()` rejects for the only flow in flight. -/
theorem step_jsonRejected_single (w : World) (id : Nat) (flow : Flow) (ok : Bool)
    (message : String) (h : w.pending = [⟨id, flow, .readingBody ok⟩]) :
    step w (.jsonRejected id message)
      = { w with dom := catchBlock w.dom flow message, pending := [] } := by
  simp [step, findPending, dropPending, h]

/-- The page reached when the response of an upload has arrived: `a`
milliseconds after the click the `fetch` promise resolves. -/
theorem upload_fetched (w : World) (file : File) (a b : Nat) (ok : Bool)
    (hfile : w.dom.selectedFile = some file) (hidle : w.pending = []) :
    let v := elapse (step (elapse (generateReport w) a) (.fetchResolved w.sent.length ok)) b
    v.dom.selectedFile = some file ∧
    v.pending = [⟨w.sent.length, .upload, .readingBody ok⟩] ∧
    v.sent = w.sent ++ [⟨"POST", "/upload", some file⟩] ∧
    (cosmeticOnly w.timers → cosmeticOnly v.timers) := by
  obtain ⟨h1, h2, h3, h4⟩ := generateReport_with_file w file hfile hidle
  obtain ⟨e1, e2, e3, -⟩ := elapse_keeps (generateReport w) a
  have hstep := step_fetchResolved_single (elapse (generateReport w) a) w.sent.length .upload ok
    (by rw [e2, h2])
  intro v
  obtain ⟨f1, f2, f3, -⟩ := elapse_keeps
    (step (elapse (generateReport w) a) (.fetchResolved w.sent.length ok)) b
  refine ⟨?_, ?_, ?_, ?_⟩
  · show v.dom.selectedFile = some file
    rw [f1, hstep]
    show (afterFetch (elapse (generateReport w) a).dom .upload).selectedFile = some file
    rw [← h1, ← e1]
    rfl
  · show v.pending = _
    rw [f2, hstep]
  · show v.sent = _
    rw [f3, hstep]
    show (elapse (generateReport w) a).sent = _
    rw [e3, h3]
  · intro hc
    have c1 := (elapse_cosmetic (generateReport w) a (h4 hc)).2
    have c2 : cosmeticOnly
        (step (elapse (generateReport w) a) (.fetchResolved w.sent.length ok)).timers := by
      rw [hstep]; exact c1
    exact (elapse_cosmetic _ b c2).2

/-- C5. A run of `generateReport` that starts with a stored file, sends its
POST to `/upload` and receives an OK response whose JSON has `success = true`
(or any other truthy value), with no user event in between, ends after the
completion callback (500 ms after the body was read) with the progress bar
hidden, the status banner visible with kind success and a hyperlink to
`/download-report`, and both action controls enabled; exactly one request was
sent. The delays `a` and `b` until the response and until its body are
arbitrary. -/
theorem upload_success (w : World) (file : File) (a b : Nat) (success error : JsValue)
    (hfile : w.dom.selectedFile = some file) (hidle : w.pending = [])
    (hsuccess : success.truthy = true) :
    let z := run (generateReport w)
      [.elapse a, .fetchResolved w.sent.length true, .elapse b,
        .jsonResolved w.sent.length (.value success error), .elapse 500]
    z.sent = w.sent ++ [⟨"POST", "/upload", some file⟩] ∧
    z.pending = [] ∧
    z.dom.progressBarHidden = true ∧
    z.dom.statusHidden = false ∧
    z.dom.statusClassName = "status-success" ∧
    Html.a "/download-report" .download "Download PDF" ∈ z.dom.statusHtml ∧
    z.dom.generateBtnDisabled = false ∧
    z.dom.sampleBtnDisabled = false ∧
    z.dom.selectedFile = some file := by
  obtain ⟨h1, h2, h3, -⟩ := upload_fetched w file a b true hfile hidle
  set v := elapse (step (elapse (generateReport w) a) (.fetchResolved w.sent.length true)) b
    with hv
  have hbody : step v (.jsonResolved w.sent.length (.value success error))
      = setTimeout { v with pending := [], dom := showProgress (showProgress v.dom 90) 100 }
          (.finish .upload) 500 := by
    rw [step_jsonResolved_single v w.sent.length .upload true _ h2]
    simp [afterBody, hsuccess]
  have htimers : (step v (.jsonResolved w.sent.length (.value success error))).timers
      = v.timers ++ [⟨(step v (.jsonResolved w.sent.length (.value success error))).now + 500,
          .finish .upload⟩] := by
    rw [hbody]; rfl
  obtain ⟨d, hd, hdom⟩ := elapse_finish_last _ _ _ _ htimers
  obtain ⟨-, g2, g3, -⟩ :=
    elapse_keeps (step v (.jsonResolved w.sent.length (.value success error))) 500
  have hsel : d.selectedFile = some file := by
    rw [hd, hbody, ← h1]; rfl
  intro z
  have hz : z = elapse (step v (.jsonResolved w.sent.length (.value success error))) 500 := rfl
  rw [hz]
  refine ⟨?_, ?_, ?_⟩
  · rw [g3, hbody]; exact h3
  · rw [g2, hbody]; rfl
  · rw [hdom]
    simp [showSuccessWithDownload, hideProgress, hsel]

/-- C5, for `report.csv`: the response `{success: true}` arrives after 1200 ms
and its body 40 ms later. -/
theorem upload_success_witness :
    let z := run (generateReport (World.start reportPage))
      [.elapse 1200, .fetchResolved (World.start reportPage).sent.length true, .elapse 40,
        .jsonResolved (World.start reportPage).sent.length (.value (.bool true) .undefined),
        .elapse 500]
    z.sent = (World.start reportPage).sent ++ [⟨"POST", "/upload", some ⟨"report.csv", 10⟩⟩] ∧
    z.pending = [] ∧
    z.dom.progressBarHidden = true ∧
    z.dom.statusHidden = false ∧
    z.dom.statusClassName = "status-success" ∧
    Html.a "/download-report" .download "Download PDF" ∈ z.dom.statusHtml ∧
    z.dom.generateBtnDisabled = false ∧
    z.dom.sampleBtnDisabled = false ∧
    z.dom.selectedFile = some ⟨"report.csv", 10⟩ :=
  upload_success (World.start reportPage) ⟨"report.csv", 10⟩ 1200 40 (.bool true) .undefined
    rfl rfl rfl

/-- The `catch` block of the upload flow: what it leaves on the page. -/
theorem catchBlock_upload (d : Dom) (message : String) :
    (catchBlock d .upload message).progressBarHidden = true ∧
    (catchBlock d .upload message).generateBtnDisabled = false ∧
    (catchBlock d .upload message).sampleBtnDisabled = false ∧
    (catchBlock d .upload message).selectedFile = d.selectedFile ∧
    (catchBlock d .upload message).statusHidden = false ∧
    (catchBlock d .upload message).statusClassName = "status-error" ∧
    (catchBlock d .upload message).statusHtml
      = [.svg .alert, .span ("Network error: " ++ message)] := by
  simp [catchBlock, showStatus, hideProgress, StatusType.className, statusIcon]

/-- The failure branch of the upload flow: what it leaves on the page. -/
theorem failureBranch_upload (d : Dom) (error : JsValue) :
    (failureBranch d .upload error).progressBarHidden = true ∧
    (failureBranch d .upload error).generateBtnDisabled = false ∧
    (failureBranch d .upload error).sampleBtnDisabled = false ∧
    (failureBranch d .upload error).selectedFile = d.selectedFile ∧
    (failureBranch d .upload error).statusHidden = false ∧
    (failureBranch d .upload error).statusClassName = "status-error" ∧
    (failureBranch d .upload error).statusHtml
      = [.svg .alert, .span (errorOr error "Error generating report")] := by
  simp [failureBranch, showStatus, hideProgress, StatusType.className, statusIcon]

/-- C6 as stated fails. For a response with status 500 whose body is not JSON
(`response.json()` rejects), the banner reads `Network error: ` followed by the
parse error, not the generic `Error generating report` stated for a response
that carries no error string; the same holds for a response with status 400
whose body is JSON `null`. And in the final state of the first run, when no
timer is left, the progress bar is visible again: the failure came after
25 ms, and the cosmetic timers of the flow ran at 300 and 600 ms. -/
theorem failed_upload_claim_counterexample :
    (run (generateReport (World.start reportPage))
      ((UploadFailure.unreadable false "unexpected character at line 1 column 1").events
        0 20 5 ++ [.elapse 600])).timers = [] ∧
    (run (generateReport (World.start reportPage))
      ((UploadFailure.unreadable false "unexpected character at line 1 column 1").events
        0 20 5 ++ [.elapse 600])).dom.statusHtml
      = [.svg .alert, .span "Network error: unexpected character at line 1 column 1"] ∧
    (run (generateReport (World.start reportPage))
      ((UploadFailure.unreadable false "unexpected character at line 1 column 1").events
        0 20 5 ++ [.elapse 600])).dom.statusHtml
      ≠ [.svg .alert, .span (claimedMessage
          (.unreadable false "unexpected character at line 1 column 1"))] ∧
    (run (generateReport (World.start reportPage))
      ((UploadFailure.unreadable false "unexpected character at line 1 column 1").events
        0 20 5 ++ [.elapse 600])).dom.progressBarHidden = false ∧
    (run (generateReport (World.start reportPage))
      ((UploadFailure.body false (.null "data is null")).events
        0 20 5 ++ [.elapse 600])).dom.statusHtml
      = [.svg .alert, .span "Network error: data is null"] ∧
    (run (generateReport (World.start reportPage))
      ((UploadFailure.body false (.null "data is null")).events
        0 20 5 ++ [.elapse 600])).dom.statusHtml
      ≠ [.svg .alert, .span (claimedMessage (.body false (.null "data is null")))] := by
  decide

/-- C6, amended. A run of `generateReport` that starts with a stored file and
fails (the request is rejected before a response, the body of the response
cannot be read as JSON, or the body is read and `response.ok && data.success`
does not hold), on a page with no other flow in flight and no completion
callback pending, has the progress bar hidden when its failure branch or
`catch` block has run. In every later state, whatever time `t` has passed,
both action controls are enabled, the stored file is unchanged and the banner
has kind error, its markup holding this message: the `error` value of the
JSON body when it is truthy (a non-empty string as it is, any other value
converted to a string), `Error generating report` when `error` is missing,
empty or otherwise falsy, and `Network error: ` followed by the underlying
message whenever the `try` block throws, that is for a transport failure, an
unreadable body and a body that is JSON `null`. Exactly one request was sent. -/
theorem upload_failure (w : World) (file : File) (a b t : Nat) (f : UploadFailure)
    (hfile : w.dom.selectedFile = some file) (hidle : w.pending = [])
    (htimers : cosmeticOnly w.timers) (hf : f.isFailure = true) :
    let v := run (generateReport w) (f.events w.sent.length a b)
    let z := run (generateReport w) (f.events w.sent.length a b ++ [.elapse t])
    v.dom.progressBarHidden = true ∧
    z.sent = w.sent ++ [⟨"POST", "/upload", some file⟩] ∧
    z.pending = [] ∧
    z.dom.generateBtnDisabled = false ∧
    z.dom.sampleBtnDisabled = false ∧
    z.dom.selectedFile = some file ∧
    z.dom.statusHidden = false ∧
    z.dom.statusClassName = "status-error" ∧
    z.dom.statusHtml = [.svg .alert, .span (match f with
      | .transport message => "Network error: " ++ message
      | .unreadable _ message => "Network error: " ++ message
      | .body _ (.null typeError) => "Network error: " ++ typeError
      | .body _ (.value _ (.string e)) => if e = "" then "Error generating report" else e
      | .body _ (.value _ .undefined) => "Error generating report"
      | .body _ (.value _ (.bool flag)) => if flag then "true" else "Error generating report"
      | .body _ (.value _ (.other truthy text)) =>
        if truthy then text else "Error generating report")] := by
  intro v z
  have hzv : z = elapse v t := by
    show run (generateReport w) (f.events w.sent.length a b ++ [.elapse t])
      = elapse (run (generateReport w) (f.events w.sent.length a b)) t
    simp [run, List.foldl_append, step]
  -- what the failing step leaves, and that only cosmetic timers remain
  have key : v.dom.progressBarHidden = true ∧
      v.sent = w.sent ++ [⟨"POST", "/upload", some file⟩] ∧ v.pending = [] ∧
      cosmeticOnly v.timers ∧
      v.dom.generateBtnDisabled = false ∧ v.dom.sampleBtnDisabled = false ∧
      v.dom.selectedFile = some file ∧ v.dom.statusHidden = false ∧
      v.dom.statusClassName = "status-error" ∧
      v.dom.statusHtml = [.svg .alert, .span (match f with
        | .transport message => "Network error: " ++ message
        | .unreadable _ message => "Network error: " ++ message
        | .body _ (.null typeError) => "Network error: " ++ typeError
        | .body _ (.value _ (.string e)) => if e = "" then "Error generating report" else e
        | .body _ (.value _ .undefined) => "Error generating report"
        | .body _ (.value _ (.bool flag)) => if flag then "true" else "Error generating report"
        | .body _ (.value _ (.other truthy text)) =>
          if truthy then text else "Error generating report")] := by
    cases f with
    | transport message =>
      obtain ⟨h1, h2, h3, h4⟩ := generateReport_with_file w file hfile hidle
      obtain ⟨e1, e2, e3, -⟩ := elapse_keeps (generateReport w) a
      have hstep := step_fetchRejected_single (elapse (generateReport w) a) w.sent.length
        .upload message (by rw [e2, h2])
      have hv : v = step (elapse (generateReport w) a)
          (.fetchRejected w.sent.length message) := rfl
      obtain ⟨c1, c2, c3, c4, c5, c6, c7⟩ :=
        catchBlock_upload (elapse (generateReport w) a).dom message
      rw [hv, hstep]
      exact ⟨c1, by rw [← h3, ← e3], rfl, (elapse_cosmetic _ a (h4 htimers)).2, c2, c3,
        by rw [c4, e1, h1], c5, c6, c7⟩
    | unreadable ok message =>
      obtain ⟨h1, h2, h3, h4⟩ := upload_fetched w file a b ok hfile hidle
      have hstep := step_jsonRejected_single _ w.sent.length .upload ok message h2
      have hv : v = step (elapse (step (elapse (generateReport w) a)
          (.fetchResolved w.sent.length ok)) b) (.jsonRejected w.sent.length message) := rfl
      obtain ⟨c1, c2, c3, c4, c5, c6, c7⟩ := catchBlock_upload
        (elapse (step (elapse (generateReport w) a) (.fetchResolved w.sent.length ok)) b).dom
        message
      rw [hv, hstep]
      exact ⟨c1, h3, rfl, h4 htimers, c2, c3, by rw [c4, h1], c5, c6, c7⟩
    | body ok data =>
      obtain ⟨h1, h2, h3, h4⟩ := upload_fetched w file a b ok hfile hidle
      have hstep := step_jsonResolved_single _ w.sent.length .upload ok data h2
      have hv : v = step (elapse (step (elapse (generateReport w) a)
          (.fetchResolved w.sent.length ok)) b) (.jsonResolved w.sent.length data) := rfl
      rw [hv, hstep]
      cases data with
      | null typeError =>
        cases ok
        · obtain ⟨c1, c2, c3, c4, c5, c6, c7⟩ := catchBlock_upload
            (hideProgress (showProgress (elapse (step (elapse (generateReport w) a)
              (.fetchResolved w.sent.length false)) b).dom 90)) typeError
          exact ⟨c1, h3, rfl, h4 htimers, c2, c3, c4.trans h1, c5, c6, c7⟩
        · obtain ⟨c1, c2, c3, c4, c5, c6, c7⟩ := catchBlock_upload
            (showProgress (elapse (step (elapse (generateReport w) a)
              (.fetchResolved w.sent.length true)) b).dom 90) typeError
          exact ⟨c1, h3, rfl, h4 htimers, c2, c3, c4.trans h1, c5, c6, c7⟩
      | value success error =>
        have hnot : (ok && success.truthy) = false := by
          have hs : (!succeeds ok (.value success error)) = true := hf
          cases hok : ok <;> cases htr : success.truthy <;> simp_all [succeeds]
        obtain ⟨c1, c2, c3, c4, c5, c6, c7⟩ := failureBranch_upload
          (showProgress (elapse (step (elapse (generateReport w) a)
            (.fetchResolved w.sent.length ok)) b).dom 90) error
        have hafter : afterBody
            { elapse (step (elapse (generateReport w) a) (.fetchResolved w.sent.length ok)) b
              with pending := [] } .upload ok (.value success error)
            = { elapse (step (elapse (generateReport w) a)
                  (.fetchResolved w.sent.length ok)) b with
                pending := []
                dom := failureBranch (showProgress (elapse (step (elapse (generateReport w) a)
                  (.fetchResolved w.sent.length ok)) b).dom 90) .upload error } := by
          simp [afterBody, hnot]
        rw [hafter]
        refine ⟨c1, h3, rfl, h4 htimers, c2, c3, c4.trans h1, c5, c6, ?_⟩
        rw [c7]
        cases error with
        | undefined => simp [errorOr, JsValue.truthy]
        | bool flag => cases flag <;> simp [errorOr, JsValue.truthy, JsValue.toText]
        | string e =>
          by_cases he : e = "" <;> simp [errorOr, JsValue.truthy, JsValue.toText, he]
        | other truthy text => cases truthy <;> simp [errorOr, JsValue.truthy, JsValue.toText]
  obtain ⟨k1, k2, k3, k4, k5, k6, k7, k8, k9, k10⟩ := key
  obtain ⟨⟨s1, s2, s3, s4, s5, s6⟩, -⟩ := elapse_cosmetic v t k4
  obtain ⟨-, g2, g3, -⟩ := elapse_keeps v t
  rw [hzv]
  exact ⟨k1, by rw [g3, k2], by rw [g2, k3], by rw [s2, k5], by rw [s3, k6], by rw [s1, k7],
    by rw [s4, k8], by rw [s5, k9], by rw [s6, k10]⟩

/-- C6, amended, for `report.csv` and the response `{success: false, error:
"bad format"}` with status 400 arriving after 20 ms, seen 10 seconds later. -/
theorem upload_failure_witness :
    let v := run (generateReport (World.start reportPage))
      ((UploadFailure.body false (.value (.bool false) (.string "bad format"))).events
        (World.start reportPage).sent.length 20 5)
    let z := run (generateReport (World.start reportPage))
      ((UploadFailure.body false (.value (.bool false) (.string "bad format"))).events
        (World.start reportPage).sent.length 20 5 ++ [.elapse 10000])
    v.dom.progressBarHidden = true ∧
    z.sent = (World.start reportPage).sent ++ [⟨"POST", "/upload", some ⟨"report.csv", 10⟩⟩] ∧
    z.pending = [] ∧
    z.dom.generateBtnDisabled = false ∧
    z.dom.sampleBtnDisabled = false ∧
    z.dom.selectedFile = some ⟨"report.csv", 10⟩ ∧
    z.dom.statusHidden = false ∧
    z.dom.statusClassName = "status-error" ∧
    z.dom.statusHtml = [.svg .alert, .span "bad format"] :=
  upload_failure (World.start reportPage) ⟨"report.csv", 10⟩ 20 5 10000
    (.body false (.value (.bool false) (.string "bad format"))) rfl rfl
    (fun _ hmem => absurd hmem (List.not_mem_nil _)) rfl

/-- A cosmetic timer that is still pending when a flow ends runs afterwards:
when the successful response is read at once, the completion callback runs at
500 ms, and at 600 ms `showProgress(50)` makes the progress bar visible again;
after a transport failure at 20 ms the bar is back at 300 ms. -/
theorem pending_cosmetic_timer_runs_later :
    (run (generateReport (World.start reportPage))
      [.fetchResolved 0 true, .jsonResolved 0 (.value (.bool true) .undefined),
        .elapse 500]).dom.progressBarHidden = true ∧
    (run (generateReport (World.start reportPage))
      [.fetchResolved 0 true, .jsonResolved 0 (.value (.bool true) .undefined),
        .elapse 500, .elapse 100]).dom.progressBarHidden = false ∧
    (run (generateReport (World.start reportPage))
      [.elapse 20, .fetchRejected 0 "Failed to fetch"]).dom.progressBarHidden = true ∧
    (run (generateReport (World.start reportPage))
      [.elapse 20, .fetchRejected 0 "Failed to fetch", .elapse 280]).dom.progressBarHidden
      = false := by
  decide

/-! ## One flow at a time -/

/-- C8 fails on the code. From any page, after `a.csv` is selected, pressing
Enter twice starts two uploads without waiting for the first; and after a
click on the enabled primary action, selecting another file enables the action
again, so that a second click starts a second upload. In both runs two
requests are in flight at once. -/
theorem second_upload_while_in_flight (d : Dom) :
    (run (World.start d)
      [.change (some ⟨"a.csv", 1⟩), .keydown false false "Enter",
        .keydown false false "Enter"]).pending
      = [⟨0, .upload, .fetching⟩, ⟨1, .upload, .fetching⟩] ∧
    (run (World.start d)
      [.change (some ⟨"a.csv", 1⟩), .generateClick, .drop (some ⟨"b.csv", 2⟩),
        .generateClick]).pending
      = [⟨0, .upload, .fetching⟩, ⟨1, .upload, .fetching⟩] ∧
    (run (World.start d)
      [.change (some ⟨"a.csv", 1⟩), .generateClick]).dom.generateBtnDisabled = true ∧
    (run (World.start d)
      [.change (some ⟨"a.csv", 1⟩), .generateClick,
        .drop (some ⟨"b.csv", 2⟩)]).dom.generateBtnDisabled = false := by
  have ha : endsWith "a.csv" ".csv" = true := by decide
  have hb : endsWith "b.csv" ".csv" = true := by decide
  simp [run, step, World.start, handleFileSelect, ha, hb, hideStatus, generateReport,
    startFetch, setTimeout, showProgress]

/-! ## The sample flow -/

/-- The `catch` block of the sample flow sets the controls from the stored
file and keeps the file. -/
theorem catchBlock_sample (d : Dom) (message : String) :
    controlsMatchFile (catchBlock d .sample message) ∧
    (catchBlock d .sample message).selectedFile = d.selectedFile := by
  cases hsel : d.selectedFile <;>
    simp [controlsMatchFile, catchBlock, showStatus, hideProgress, hsel]

/-- The failure branch of the sample flow sets the controls from the stored
file and keeps the file. -/
theorem failureBranch_sample (d : Dom) (error : JsValue) :
    controlsMatchFile (failureBranch d .sample error) ∧
    (failureBranch d .sample error).selectedFile = d.selectedFile := by
  cases hsel : d.selectedFile <;>
    simp [controlsMatchFile, failureBranch, showStatus, hideProgress, hsel]

/-- With nothing in flight, `generateSampleReport` sends one GET to
`/generate-sample` and keeps the stored file. -/
theorem generateSampleReport_start (w : World) (hidle : w.pending = []) :
    (generateSampleReport w).dom.selectedFile = w.dom.selectedFile ∧
    (generateSampleReport w).pending = [⟨w.sent.length, .sample, .fetching⟩] ∧
    (generateSampleReport w).sent = w.sent ++ [⟨"GET", "/generate-sample", none⟩] := by
  simp [generateSampleReport, hidle, startFetch, setTimeout, showProgress, hideStatus]

/-- The time of a list of events is the time of its first event plus that of
the rest. -/
theorem elapsedTime_cons (e : Event) (es : List Event) :
    elapsedTime (e :: es) = elapsedTime [e] + elapsedTime es := by
  cases e <;> simp [elapsedTime]

/-- A quiet event leaves the flows in flight and the requests sent alone,
advances the clock by its time, and keeps every timer that is not yet due. -/
theorem quiet_step (w : World) (e : Event) (h : quiet e = true) :
    (step w e).pending = w.pending ∧ (step w e).sent = w.sent ∧
    (step w e).now = w.now + elapsedTime [e] ∧
    (∀ x ∈ w.timers, w.now + elapsedTime [e] < x.due → x ∈ (step w e).timers) := by
  cases e with
  | elapse ms =>
    refine ⟨(elapse_keeps w ms).2.1, (elapse_keeps w ms).2.2.1, ?_, ?_⟩
    · rw [show elapsedTime [Event.elapse ms] = ms from rfl]
      exact (elapse_keeps w ms).2.2.2
    · intro x hx hdue
      rw [show elapsedTime [Event.elapse ms] = ms from rfl] at hdue
      exact List.mem_filter.mpr ⟨hx, by simpa using hdue⟩
  | dropZoneClick => exact ⟨rfl, rfl, rfl, fun x hx _ => hx⟩
  | dragover => exact ⟨rfl, rfl, rfl, fun x hx _ => hx⟩
  | dragleave => exact ⟨rfl, rfl, rfl, fun x hx _ => hx⟩
  | drop file => exact ⟨rfl, rfl, rfl, fun x hx _ => hx⟩
  | change file => exact ⟨rfl, rfl, rfl, fun x hx _ => hx⟩
  | removeClick => exact ⟨rfl, rfl, rfl, fun x hx _ => hx⟩
  | _ => simp [quiet] at h

/-- The stored file after a quiet event depends only on the stored file
before it. -/
theorem quiet_step_selected (u v : World) (e : Event) (h : quiet e = true)
    (hsel : u.dom.selectedFile = v.dom.selectedFile) :
    (step u e).dom.selectedFile = (step v e).dom.selectedFile := by
  cases e <;> simp [quiet] at h <;> simp [step, hsel, removeFile, hideStatus]
  case drop file =>
    cases file with
    | none => simp [handleFileSelect, hsel]
    | some f =>
      by_cases hcsv : endsWith f.name ".csv" = true <;>
        simp [handleFileSelect, hcsv, showStatus, hideStatus, hsel]
  case change file =>
    cases file with
    | none => simp [handleFileSelect, hsel]
    | some f =>
      by_cases hcsv : endsWith f.name ".csv" = true <;>
        simp [handleFileSelect, hcsv, showStatus, hideStatus, hsel]
  case elapse ms =>
    rw [(elapse_keeps u ms).1, (elapse_keeps v ms).1, hsel]

/-- Quiet events leave the flows in flight and the requests sent alone,
advance the clock by their time, and keep every timer that is not yet due at
the end. -/
theorem run_quiet (us : List Event) (w : World) (h : ∀ e ∈ us, quiet e = true) :
    (run w us).pending = w.pending ∧ (run w us).sent = w.sent ∧
    (run w us).now = w.now + elapsedTime us ∧
    (∀ x ∈ w.timers, w.now + elapsedTime us < x.due → x ∈ (run w us).timers) := by
  induction us generalizing w with
  | nil => exact ⟨rfl, rfl, rfl, fun x hx _ => hx⟩
  | cons e us ih =>
    obtain ⟨p1, p2, p3, p4⟩ := quiet_step w e (h e (List.mem_cons_self e us))
    obtain ⟨q1, q2, q3, q4⟩ := ih (step w e) (fun x hx => h x (List.mem_cons_of_mem e hx))
    have hrun : run w (e :: us) = run (step w e) us := rfl
    rw [hrun, elapsedTime_cons]
    refine ⟨q1.trans p1, q2.trans p2, by rw [q3, p3]; omega, ?_⟩
    intro x hx hdue
    apply q4 x (p4 x hx (by omega))
    rw [p3]; omega

/-- The stored file after quiet events depends only on the stored file before
them. -/
theorem run_quiet_selected (us : List Event) (u v : World) (h : ∀ e ∈ us, quiet e = true)
    (hsel : u.dom.selectedFile = v.dom.selectedFile) :
    (run u us).dom.selectedFile = (run v us).dom.selectedFile := by
  induction us generalizing u v with
  | nil => exact hsel
  | cons e us ih =>
    exact ih (step u e) (step v e) (fun x hx => h x (List.mem_cons_of_mem e hx))
      (quiet_step_selected u v e (h e (List.mem_cons_self e us)) hsel)

/-- Running one list of events after another. -/
theorem run_append (w : World) (us vs : List Event) :
    run w (us ++ vs) = run (run w us) vs := by
  simp [run, List.foldl_append]

/-- On JSON `null` the step after the body runs the `catch` block. -/
theorem afterBody_null (w : World) (flow : Flow) (ok : Bool) (typeError : String) :
    ∃ d : Dom, d.selectedFile = w.dom.selectedFile ∧
      afterBody w flow ok (.null typeError) = { w with dom := catchBlock d flow typeError } := by
  cases ok <;> cases flow <;> exact ⟨_, rfl, rfl⟩

/-- When `response.ok && data.success` does not hold, the step after the body
runs the failure branch. -/
theorem afterBody_failure (w : World) (flow : Flow) (ok : Bool) (success error : JsValue)
    (h : (ok && success.truthy) = false) :
    ∃ d : Dom, d.selectedFile = w.dom.selectedFile ∧
      afterBody w flow ok (.value success error)
        = { w with dom := failureBranch d flow error } := by
  cases flow
  · exact ⟨showProgress w.dom 90, rfl, by simp [afterBody, h]⟩
  · exact ⟨showProgress w.dom 95, rfl, by simp [afterBody, h]⟩

/-- When `response.ok && data.success` holds, the step after the body
schedules the completion callback of the flow in 500 ms. -/
theorem afterBody_success (w : World) (flow : Flow) (ok : Bool) (success error : JsValue)
    (h : (ok && success.truthy) = true) :
    ∃ d : Dom, d.selectedFile = w.dom.selectedFile ∧
      afterBody w flow ok (.value success error)
        = setTimeout { w with dom := d } (.finish flow) 500 := by
  cases flow
  · exact ⟨showProgress (showProgress w.dom 90) 100, rfl, by simp [afterBody, h]⟩
  · exact ⟨showProgress (showProgress w.dom 95) 100, rfl, by simp [afterBody, h]⟩

/-- C9. Every run of `generateSampleReport` on a page with nothing else in
flight completes, whatever its outcome (transport failure, unreadable body,
server-reported failure, or success followed by the completion callback
500 ms after the body was read) and whatever file selections, removals and
waiting times fall between its steps. In the state right after the flow has
completed, one GET has been sent and nothing is in flight, the sample control
is enabled, and the primary action is enabled exactly when a file is stored at
that moment. The stored file is the one the user events alone would have
left: the flow itself never changes it. -/
theorem sample_flow_completes (w : World) (us1 us2 us3 : List Event) (o : SampleOutcome)
    (hidle : w.pending = [])
    (h1 : ∀ e ∈ us1, quiet e = true) (h2 : ∀ e ∈ us2, quiet e = true)
    (h3 : ∀ e ∈ us3, quiet e = true) (ht : elapsedTime us3 < 500) :
    let z := sampleRun w us1 us2 us3 o
    z.sent = w.sent ++ [⟨"GET", "/generate-sample", none⟩] ∧
    z.pending = [] ∧
    z.dom.sampleBtnDisabled = false ∧
    (z.dom.generateBtnDisabled = false ↔ z.dom.selectedFile ≠ none) ∧
    z.dom.selectedFile = (run w (o.userEvents us1 us2 us3)).dom.selectedFile := by
  obtain ⟨s1, s2, s3⟩ := generateSampleReport_start w hidle
  obtain ⟨a1, a2, -, -⟩ := run_quiet us1 (generateSampleReport w) h1
  have asel : (run (generateSampleReport w) us1).dom.selectedFile
      = (run w us1).dom.selectedFile :=
    run_quiet_selected us1 _ _ h1 s1
  rw [s2] at a1
  rw [s3] at a2
  -- the page once the response has arrived and `us2` has passed
  have fetched : ∀ ok : Bool,
      let v := run (step (run (generateSampleReport w) us1)
        (.fetchResolved w.sent.length ok)) us2
      v.pending = [⟨w.sent.length, .sample, .readingBody ok⟩] ∧
      v.sent = w.sent ++ [⟨"GET", "/generate-sample", none⟩] ∧
      v.dom.selectedFile = (run w (us1 ++ us2)).dom.selectedFile := by
    intro ok v
    have hstep := step_fetchResolved_single (run (generateSampleReport w) us1)
      w.sent.length .sample ok a1
    obtain ⟨b1, b2, -, -⟩ := run_quiet us2
      (step (run (generateSampleReport w) us1) (.fetchResolved w.sent.length ok)) h2
    have bsel : v.dom.selectedFile = (run (run w us1) us2).dom.selectedFile := by
      apply run_quiet_selected us2 _ _ h2
      rw [hstep]
      exact asel
    refine ⟨?_, ?_, ?_⟩
    · show v.pending = _
      rw [b1, hstep]
    · show v.sent = _
      rw [b2, hstep]
      exact a2
    · rw [run_append]
      exact bsel
  intro z
  cases o with
  | transport message =>
    have hz : z = step (run (generateSampleReport w) us1)
        (.fetchRejected w.sent.length message) := rfl
    obtain ⟨⟨c1, c2⟩, c3⟩ := catchBlock_sample (run (generateSampleReport w) us1).dom message
    rw [hz, step_fetchRejected_single _ _ .sample message a1]
    exact ⟨a2, rfl, c1, c2, c3.trans asel⟩
  | unreadable ok message =>
    obtain ⟨f1, f2, f3⟩ := fetched ok
    have hz : z = step (run (step (run (generateSampleReport w) us1)
        (.fetchResolved w.sent.length ok)) us2) (.jsonRejected w.sent.length message) := rfl
    obtain ⟨⟨c1, c2⟩, c3⟩ := catchBlock_sample (run (step (run (generateSampleReport w) us1)
        (.fetchResolved w.sent.length ok)) us2).dom message
    rw [hz, step_jsonRejected_single _ _ .sample ok message f1]
    exact ⟨f2, rfl, c1, c2, c3.trans f3⟩
  | body ok data =>
    obtain ⟨f1, f2, f3⟩ := fetched ok
    have hz : z = if succeeds ok data then
          elapse (run (step (run (step (run (generateSampleReport w) us1)
            (.fetchResolved w.sent.length ok)) us2) (.jsonResolved w.sent.length data)) us3)
            (500 - elapsedTime us3)
        else step (run (step (run (generateSampleReport w) us1)
          (.fetchResolved w.sent.length ok)) us2) (.jsonResolved w.sent.length data) := rfl
    rw [hz]
    generalize run (step (run (generateSampleReport w) us1)
      (.fetchResolved w.sent.length ok)) us2 = r at f1 f2 f3 ⊢
    have hstep := step_jsonResolved_single r w.sent.length .sample ok data f1
    rw [hstep]
    cases hs : succeeds ok data with
    | false =>
      have hu : (SampleOutcome.body ok data).userEvents us1 us2 us3 = us1 ++ us2 := by
        simp [SampleOutcome.userEvents, hs]
      rw [hu, if_neg (by simp)]
      cases data with
      | null typeError =>
        obtain ⟨d, hd, hafter⟩ := afterBody_null { r with pending := [] } .sample ok typeError
        obtain ⟨⟨c1, c2⟩, c3⟩ := catchBlock_sample d typeError
        rw [hafter]
        exact ⟨f2, rfl, c1, c2, (c3.trans hd).trans f3⟩
      | value success error =>
        obtain ⟨d, hd, hafter⟩ :=
          afterBody_failure { r with pending := [] } .sample ok success error hs
        obtain ⟨⟨c1, c2⟩, c3⟩ := failureBranch_sample d error
        rw [hafter]
        exact ⟨f2, rfl, c1, c2, (c3.trans hd).trans f3⟩
    | true =>
      cases data with
      | null typeError => simp [succeeds] at hs
      | value success error =>
        have hu : (SampleOutcome.body ok (.value success error)).userEvents us1 us2 us3
            = us1 ++ us2 ++ us3 := by
          simp [SampleOutcome.userEvents, hs]
        rw [hu, if_pos rfl]
        -- the completion callback is scheduled
        obtain ⟨d, hd, hafter⟩ :=
          afterBody_success { r with pending := [] } .sample ok success error hs
        rw [hafter]
        generalize hv : setTimeout { r with pending := [], dom := d } (.finish .sample) 500 = v
        have hvp : v.pending = [] := by rw [← hv]; rfl
        have hvs : v.sent = r.sent := by rw [← hv]; rfl
        have hvn : v.now = r.now := by rw [← hv]; rfl
        have hvsel : v.dom.selectedFile = r.dom.selectedFile := by rw [← hv]; exact hd
        have hvt : (⟨r.now + 500, .finish .sample⟩ : Timer) ∈ v.timers := by
          rw [← hv]
          simp [setTimeout]
        -- it is still pending after `us3` and runs in the last step
        obtain ⟨g1, g2, g3, g4⟩ := run_quiet us3 v h3
        have hpend : (⟨r.now + 500, .finish .sample⟩ : Timer) ∈ (run v us3).timers :=
          g4 _ hvt (by show v.now + elapsedTime us3 < r.now + 500; omega)
        have gsel : (run v us3).dom.selectedFile
            = (run (run w (us1 ++ us2)) us3).dom.selectedFile :=
          run_quiet_selected us3 _ _ h3 (hvsel.trans f3)
        obtain ⟨k1, k2, k3, -⟩ := elapse_keeps (run v us3) (500 - elapsedTime us3)
        have hctl : controlsMatchFile (elapse (run v us3) (500 - elapsedTime us3)).dom := by
          apply foldl_runTimer_finish
          refine ⟨⟨r.now + 500, .finish .sample⟩, ?_, .sample, rfl⟩
          rw [(List.perm_insertionSort _ _).mem_iff]
          refine List.mem_filter.mpr ⟨hpend, ?_⟩
          have : r.now + 500 ≤ (run v us3).now + (500 - elapsedTime us3) := by
            rw [g3, hvn]; omega
          simpa using this
        refine ⟨?_, ?_, hctl.1, hctl.2, ?_⟩
        · rw [k3, g2, hvs]; exact f2
        · rw [k2, g1, hvp]
        · rw [k1, gsel, ← run_append]

/-- C9, for a successful sample run on the page holding `report.csv`: the
file is removed while `fetch` is pending, `late.csv` is selected while the
body is read, and it is removed again 200 ms before the completion callback. -/
theorem sample_flow_completes_witness :
    let z := sampleRun (World.start reportPage)
      [.elapse 100, .removeClick] [.change (some ⟨"late.csv", 5⟩), .elapse 30]
      [.elapse 300, .removeClick] (.body true (.value (.bool true) .undefined))
    z.sent = (World.start reportPage).sent ++ [⟨"GET", "/generate-sample", none⟩] ∧
    z.pending = [] ∧
    z.dom.sampleBtnDisabled = false ∧
    (z.dom.generateBtnDisabled = false ↔ z.dom.selectedFile ≠ none) ∧
    z.dom.selectedFile = (run (World.start reportPage)
      ((SampleOutcome.body true (.value (.bool true) .undefined)).userEvents
        [.elapse 100, .removeClick] [.change (some ⟨"late.csv", 5⟩), .elapse 30]
        [.elapse 300, .removeClick])).dom.selectedFile :=
  sample_flow_completes (World.start reportPage)
    [.elapse 100, .removeClick] [.change (some ⟨"late.csv", 5⟩), .elapse 30]
    [.elapse 300, .removeClick] (.body true (.value (.bool true) .undefined))
    rfl (by decide) (by decide) (by decide) (by decide)

end InsightX
